import Mathlib

set_option autoImplicit false

/-!
Verification development for the 3liz/QGIS-Resources processing scripts.

Shallow embedding of the repository's Python processing scripts:
* `change_datasource_projects.py` — bulk update of datasource URIs in QGIS
  projects (regex substitution, backup handling, per-file iteration);
* `AuditQGISProjects.py` — audit of QGIS projects (deduplicating maps from
  datasources / PostgreSQL tables to projects, CSV emission);
* `main_color.py` — symbology-derived color/label expressions;
* `add_joins_for_relation_fields.py` — per-layer join loop with failure
  accumulation;
* `disable_or_exclude_fields_starting_with.py` — WMS/WFS exclusion lists.

Machine strings are modelled as Lean `String` / `List Char`; the regex engine
is modelled for the literal patterns the script builds (`re.escape` makes the
user pattern literal, `FULLWORD` wraps it in word boundaries), with the ASCII
reading of the `\w` character class and of `re.IGNORECASE` folding.
-/

namespace QGISRes

/-! ### Regex model (change_datasource_projects.py, lines 86-96)

The script compiles `re.escape(input_pattern)` — a literal pattern — and,
when `FULLWORD` is set, surrounds it with `\b` word boundaries.  `\b` matches
between two adjacent positions exactly when one side is a word character
(`[A-Za-z0-9_]`, ASCII model) and the other is not (positions outside the
string count as non-word). -/

/-- ASCII model of the regex word-character class `\w` = `[A-Za-z0-9_]`. -/
def isWordChar (c : Char) : Bool :=
  (65 ≤ c.toNat && c.toNat ≤ 90) || (97 ≤ c.toNat && c.toNat ≤ 122) ||
    (48 ≤ c.toNat && c.toNat ≤ 57) || (c.toNat == 95)

/-- Single-character comparison of subject char `a` against pattern char `b`;
`ic` models `re.IGNORECASE` (ASCII case folding). -/
def charMatch (ic : Bool) (a b : Char) : Bool :=
  if ic then a.toLower == b.toLower else a == b

/-- Does the literal pattern (second argument) match at the front of the
subject (first argument)? -/
def litMatch (ic : Bool) : List Char → List Char → Bool
  | _, [] => true
  | [], _ :: _ => false
  | a :: s, b :: p => charMatch ic a b && litMatch ic s p

/-- Literal pattern `p` matches the subject `s` at offset `i`. -/
def litMatchAt (ic : Bool) (s p : List Char) (i : Nat) : Bool :=
  litMatch ic (s.drop i) p

/-- Is the character at index `i` of `s` a word character?  Out-of-range
positions count as non-word, as in the regex `\b` semantics. -/
def wordCharAt (s : List Char) (i : Nat) : Bool :=
  match s[i]? with
  | some c => isWordChar c
  | none => false

/-- The regex word boundary `\b` at gap position `i` of `s` (between
characters `i - 1` and `i`). -/
def boundary (s : List Char) (i : Nat) : Bool :=
  (if i = 0 then false else wordCharAt s (i - 1)) != wordCharAt s i

/-- Match of the compiled pattern at offset `i`: the literal body must match
and, when `fw` (`FULLWORD`) is set, both surrounding `\b` boundaries must
hold. -/
def matchPos (ic fw : Bool) (p s : List Char) (i : Nat) : Bool :=
  litMatchAt ic s p i && (!fw || (boundary s i && boundary s (i + p.length)))

/-- Leftmost match position of the compiled pattern in `s`, if any. -/
def findMatchPos (ic fw : Bool) (p s : List Char) : Option Nat :=
  (List.range (s.length + 1)).find? (matchPos ic fw p s)

/-- `input_pattern.sub(replace_text, old_source, count=1)`: replace the
leftmost match of the compiled literal pattern, if there is one. -/
def reSubOnce (ic fw : Bool) (p repl s : List Char) : List Char :=
  match findMatchPos ic fw p s with
  | none => s
  | some i => s.take i ++ repl ++ s.drop (i + p.length)

/-! ### change_datasource_projects.py: `_replace_datasources` (lines 105-137)

A project file is modelled by the list of texts of its `<datasource>`
elements (the only part of the serialized content the function inspects or
changes).  The function walks the node list; for each node whose text the
substitution changes it sets the node value and — because the backup /
move / write block is indented inside the node loop, guarded by
`if changed:` immediately after `changed = True` — re-serializes the DOM,
moves the file at the original path onto the `.bak` path (overwriting any
previous backup) and writes the new serialization to the original path,
unlinking the backup when backups are disabled. -/

/-- File-system and loop state of one `_replace_datasources` call:
the DOM's datasource texts, the content at the original path, the content at
the `<original>.<timestamp>.bak` path (if that file exists), and the
`changed` flag. -/
structure RState where
  dom : List (List Char)
  pathContent : List (List Char)
  bak : Option (List (List Char))
  changed : Bool
deriving DecidableEq

/-- One iteration of the `for node in nodelist` loop at node index `i`,
with `sub` the compiled substitution (`input_pattern.sub(replace_text, ·,
count=1)`) and `backups` the `CREATE_BACKUP` parameter. -/
def replaceStep (sub : List Char → List Char) (backups : Bool) (st : RState) (i : Nat) : RState :=
  let old := st.dom.getD i []
  let nw := sub old
  if nw = old then st
  else
    -- node.firstChild().setNodeValue(new_source); changed = True
    let dom2 := st.dom.set i nw
    -- `if changed:` — vacuously true here, so the block runs once per changed node:
    -- content = dom.toString(); shutil.move(path, bak);
    -- _write_content(content, bak, path, ...); if not backups: bak.unlink()
    { dom := dom2
      pathContent := dom2
      bak := if backups then some st.pathContent else none
      changed := true }

/-- A full `_replace_datasources` run over a file whose datasource texts are
`dss`. -/
def replaceDatasourcesRun (sub : List Char → List Char) (backups : Bool)
    (dss : List (List Char)) : RState :=
  (List.range dss.length).foldl (replaceStep sub backups) ⟨dss, dss, none, false⟩

/-! ### change_datasource_projects.py: `_iterate` (lines 141-154)

One collected project file: its path and the outcome of reading/parsing it —
either the list of its datasource texts or the message of the exception its
processing raises. -/

instance {ε α : Type} [DecidableEq ε] [DecidableEq α] : DecidableEq (Except ε α) := fun a b =>
  match a, b with
  | .error x, .error y =>
    if h : x = y then isTrue (congrArg Except.error h)
    else isFalse (fun he => h (Except.error.inj he))
  | .error _, .ok _ => isFalse (fun he => Except.noConfusion he)
  | .ok _, .error _ => isFalse (fun he => Except.noConfusion he)
  | .ok x, .ok y =>
    if h : x = y then isTrue (congrArg Except.ok h)
    else isFalse (fun he => h (Except.ok.inj he))

structure RewriteFile where
  path : String
  content : Except String (List (List Char))
deriving DecidableEq

/-- Outcome of the `_iterate` generator: the paths the loop entered (every
collected file, in order), the paths yielded as modified, and the error
messages passed to `feedback.reportError`. -/
structure IterOutcome where
  attempted : List String
  modified : List String
  errors : List String
deriving DecidableEq

/-- `_replace_datasources(path)` for one collected file: the exception it
raises, or the `changed` flag it returns. -/
def processFile (sub : List Char → List Char) (backups : Bool) (f : RewriteFile) :
    Except String Bool :=
  match f.content with
  | .error e => .error e
  | .ok dss => .ok (replaceDatasourcesRun sub backups dss).changed

/-- One iteration of the `for current, path in enumerate(collected)` loop:
a raised exception is caught, reported and the loop continues; a returned
`True` yields the path. -/
def iterStep (sub : List Char → List Char) (backups : Bool)
    (acc : IterOutcome) (f : RewriteFile) : IterOutcome :=
  let acc := { acc with attempted := acc.attempted ++ [f.path] }
  match processFile sub backups f with
  | .ok true => { acc with modified := acc.modified ++ [f.path] }
  | .ok false => acc
  | .error e =>
      { acc with errors := acc.errors ++ ["Error while processing " ++ f.path ++ ": " ++ e] }

/-- `modified = list(_iterate())` together with the attempted paths and the
reported errors. -/
def iterateRun (sub : List Char → List Char) (backups : Bool)
    (files : List RewriteFile) : IterOutcome :=
  files.foldl (iterStep sub backups) ⟨[], [], []⟩

/-- The loop body of `_iterate` contains no `feedback.isCanceled()` call, so
its outcome does not depend on the cancellation schedule `cancel`. -/
def iterateRunUnderCancel (cancel : Nat → Bool) (sub : List Char → List Char)
    (backups : Bool) (files : List RewriteFile) : IterOutcome :=
  iterateRun sub backups files

/-- The algorithm's terminal result: `return { 'OUTPUT_MODIFIED_COUNT':
len(modified) }` — reached unconditionally after the loop, so the run never
ends in a `QgsProcessingException` once the parameters were accepted. -/
def updateProjectDatasourcesResult (sub : List Char → List Char) (backups : Bool)
    (files : List RewriteFile) : Except String Nat :=
  .ok (iterateRun sub backups files).modified.length

/-- Specification-side predicate: the file is processed without exception and
the substitution changes at least one of its datasource texts. -/
def fileChanged (sub : List Char → List Char) (f : RewriteFile) : Bool :=
  match f.content with
  | .error _ => false
  | .ok dss => dss.any (fun ds => sub ds != ds)

/-- Specification-side error message of a file whose processing raises. -/
def fileErrMsg (f : RewriteFile) : Option String :=
  match f.content with
  | .error e => some ("Error while processing " ++ f.path ++ ": " ++ e)
  | .ok _ => none

/-! ### AuditQGISProjects.py: data model -/

/-- One layer of a parsed project, as the audit script sees it: the layer
name, the text of its `<datasource>` XML element (the string `GHOST` stands
in when the XML parse failed, exactly as in the script), the provider type,
and the schema/table pair `QgsDataSourceUri` extracts when the datasource is
a PostgreSQL one (`none` models a parse failure, which the script swallows). -/
structure LayerInfo where
  name : String
  datasourceText : String
  provider : String
  pgSchemaTable : Option (String × String)
deriving DecidableEq

/-- One project file: its path and its layers in `mapLayers()` order. -/
structure ProjectInfo where
  path : String
  layers : List LayerInfo
deriving DecidableEq

/-- The algorithm parameters used by the parts under audit.  `nameFilter`
and `dsFilter` are the already-`strip()`ped strings of lines 264-265. -/
structure AuditParams where
  root : String
  outProjects : String
  outLayers : String
  outTables : String
  nameFilter : String
  dsFilter : String
  lizmap : Bool
deriving DecidableEq

/-- Value of one key of `exported_datasources`: the layer names and the
project relative paths referencing the datasource. -/
structure DsEntry where
  names : List String
  projects : List String
deriving DecidableEq

/-- The two deduplicating maps the audit run builds, as insertion-ordered
association lists (Python `dict` preserves insertion order; a key occurs at
most once). -/
structure AuditState where
  datasources : List (String × DsEntry)
  tables : List (String × List String)
deriving DecidableEq

/-- `if x not in l: l.append(x)`. -/
def addUnique (l : List String) (x : String) : List String :=
  if x ∈ l then l else l ++ [x]

/-- Python `dict` upsert on an insertion-ordered association list:
`if k not in m: m[k] = d`, then `m[k] = f(m[k])`.  A present key keeps its
position; a new key is appended at the end. -/
def dictUpdate {α : Type} (k : String) (d : α) (f : α → α) :
    List (String × α) → List (String × α)
  | [] => [(k, f d)]
  | p :: t => if p.1 = k then (p.1, f p.2) :: t else p :: dictUpdate k d f t

/-- `m[k]`, with default `d` for an absent key. -/
def entryD {α : Type} (m : List (String × α)) (k : String) (d : α) : α :=
  (m.lookup k).getD d

/-- Python's substring test `needle in hay`. -/
def containsSub (needle : List Char) : List Char → Bool
  | [] => needle.isEmpty
  | c :: t => needle.isPrefixOf (c :: t) || containsSub needle t

/-- `a in b` on strings. -/
def strContains (hay needle : String) : Bool :=
  containsSub needle.data hay.data

/-- Python `str.strip()` (ASCII whitespace model): drop leading and trailing
whitespace characters. -/
def strStrip (s : String) : String :=
  ⟨((s.data.dropWhile Char.isWhitespace).reverse.dropWhile Char.isWhitespace).reverse⟩

/-- Python `str.lower()` (ASCII model). -/
def strLower (s : String) : String :=
  ⟨s.data.map Char.toLower⟩

/-- Python `str.startswith(pre)`. -/
def strStarts (s pre : String) : Bool :=
  pre.data.isPrefixOf s.data

/-- Removal of every non-overlapping occurrence of `pat`, left to right,
fuelled by the length of the remaining text (enough fuel for any input). -/
def removeSubFuel (pat : List Char) : Nat → List Char → List Char
  | _, [] => []
  | 0, l => l
  | fuel + 1, c :: t =>
    if !pat.isEmpty && pat.isPrefixOf (c :: t) then
      removeSubFuel pat fuel ((c :: t).drop pat.length)
    else c :: removeSubFuel pat fuel t

/-- `project_file.replace(projects_root_directory, '')` (line 336). -/
def relPath (root path : String) : String :=
  ⟨removeSubFuel root.data path.data.length path.data⟩

/-- `'"{}"."{}"'.format(uri.schema(), uri.table())` (lines 400-403). -/
def tableKey (schema table : String) : String :=
  "\x22" ++ schema ++ "\x22.\x22" ++ table ++ "\x22"

/-- The two per-layer filter checks of lines 372-385: the name filter is a
case-insensitive substring test on the stripped layer name, the datasource
filter a case-sensitive substring test on the stripped datasource; an empty
filter always matches. -/
def matchesFilters (P : AuditParams) (nm ds : String) : Bool :=
  (P.nameFilter == "" || strContains (strLower nm) (strLower P.nameFilter)) &&
    (P.dsFilter == "" || strContains ds P.dsFilter)

/-- Lines 395-410: when the tables CSV is requested and the provider is
`postgres`, record the project under the layer's table key (a
`QgsDataSourceUri` parse failure is swallowed and records nothing). -/
def layerTablesUpdate (P : AuditParams) (projRel : String) (l : LayerInfo)
    (st : AuditState) : AuditState :=
  if P.outTables != "TEMPORARY_OUTPUT" && l.provider == "postgres" then
    match l.pgSchemaTable with
    | some (sch, tbl) =>
        { st with tables := (dictUpdate (tableKey sch tbl) []
            (fun ps => addUnique ps projRel) st.tables) }
    | none => st
  else st

/-- Lines 412-422: when the layers CSV is requested, record the layer name
and the project under the stripped datasource key. -/
def layerDatasourcesUpdate (P : AuditParams) (projRel ds nm : String)
    (st : AuditState) : AuditState :=
  if P.outLayers != "TEMPORARY_OUTPUT" then
    { st with datasources := (dictUpdate ds ⟨[], []⟩
        (fun e => ⟨addUnique e.names nm, addUnique e.projects projRel⟩) st.datasources) }
  else st

/-- The body of the `for lid in p.mapLayers()` loop (lines 350-422) as a map
transformer: skip the layer unless both filters match; skip it when the
stripped datasource is empty; otherwise apply the tables update and then the
datasources update. -/
def processLayer (P : AuditParams) (projRel : String) (st : AuditState) (l : LayerInfo) :
    AuditState :=
  let ds := strStrip l.datasourceText
  let nm := strStrip l.name
  if !matchesFilters P nm ds then st
  else if ds == "" then st
  else layerDatasourcesUpdate P projRel ds nm (layerTablesUpdate P projRel l st)

/-- Processing of one project file: its layers are folded over the state. -/
def processProject (P : AuditParams) (st : AuditState) (pr : ProjectInfo) : AuditState :=
  pr.layers.foldl (processLayer P (relPath P.root pr.path)) st

/-- The maps after the whole `for current, project_file in enumerate(...)`
loop, when no cancellation occurs. -/
def buildAuditState (P : AuditParams) (prs : List ProjectInfo) : AuditState :=
  prs.foldl (processProject P) ⟨[], []⟩

/-- The audit project loop with its cancellation poll (lines 310-313):
each iteration first checks `feedback.isCanceled()` — `cancel k` is the
value of the `k`-th poll — and breaks when it is true.  Returns the final
state and the paths of the projects actually processed. -/
def auditProjectLoop (P : AuditParams) (cancel : Nat → Bool) :
    Nat → AuditState → List ProjectInfo → AuditState × List String
  | _, st, [] => (st, [])
  | k, st, pr :: rest =>
    if cancel k then (st, [])
    else
      let res := auditProjectLoop P cancel (k + 1) (processProject P st pr) rest
      (res.1, pr.path :: res.2)

/-- Does the layer contribute an entry to `exported_datasources`? -/
def dsContributes (P : AuditParams) (l : LayerInfo) : Bool :=
  matchesFilters P (strStrip l.name) (strStrip l.datasourceText) &&
    strStrip l.datasourceText != "" && P.outLayers != "TEMPORARY_OUTPUT"

/-- Does the layer contribute an entry to `unique_postgresql_tables`? -/
def tbContributes (P : AuditParams) (l : LayerInfo) : Bool :=
  matchesFilters P (strStrip l.name) (strStrip l.datasourceText) &&
    strStrip l.datasourceText != "" && P.outTables != "TEMPORARY_OUTPUT" &&
    l.provider == "postgres" && l.pgSchemaTable.isSome

/-- The table key a layer contributes, when it has one. -/
def tbKeyOf (l : LayerInfo) : Option String :=
  l.pgSchemaTable.map (fun p => tableKey p.1 p.2)

/-- Specification-side stream: the relative paths of the projects whose
layers contribute datasource `k`, one occurrence per contributing layer, in
processing order. -/
def dsKeyProjContribs (P : AuditParams) (prs : List ProjectInfo) (k : String) : List String :=
  prs.flatMap (fun pr =>
    (pr.layers.filter (fun l => dsContributes P l && strStrip l.datasourceText == k)).map
      (fun _ => relPath P.root pr.path))

/-- Specification-side stream: the stripped names of the layers contributing
datasource `k`, in processing order. -/
def dsKeyNameContribs (P : AuditParams) (prs : List ProjectInfo) (k : String) : List String :=
  prs.flatMap (fun pr =>
    (pr.layers.filter (fun l => dsContributes P l && strStrip l.datasourceText == k)).map
      (fun l => strStrip l.name))

/-- Specification-side stream: the relative paths of the projects whose
layers contribute PostgreSQL table `k`, in processing order. -/
def tbKeyProjContribs (P : AuditParams) (prs : List ProjectInfo) (k : String) : List String :=
  prs.flatMap (fun pr =>
    (pr.layers.filter (fun l => tbContributes P l && tbKeyOf l == some k)).map
      (fun _ => relPath P.root pr.path))

/-! ### AuditQGISProjects.py: CSV emission (lines 563-657) -/

/-- `sorted(m.keys())` — Python sorts strings lexicographically by code
point, as Lean's `String` order does. -/
def sortedKeys {α : Type} (m : List (String × α)) : List String :=
  (m.map Prod.fst).mergeSort (fun a b => decide (a ≤ b))

/-- The projects CSV field names (lines 568-579). -/
def projectsBaseFieldnames : List String :=
  ["path", "basename", "last_modified", "crs",
   "layer_count", "invalid_layer_count", "memory_usage_mb",
   "print_layout_count", "print_layout_pictures_paths", "print_layout_pictures_sizes",
   "print_layout_pictures_total_size", "print_layout_pictures_total_size_mb",
   "trust_option_active", "last_save_version"]

/-- The five additional Lizmap field names. -/
def lizmapFieldnames : List String :=
  ["has_lizmap_config", "qgis_desktop_version", "lizmap_plugin_version",
   "lizmap_web_client_target_version", "project_valid"]

/-- `fieldnames`, extended when `GET_LIZMAP_CONFIG_PROPERTIES` is set. -/
def projectsFieldnames (lizmap : Bool) : List String :=
  projectsBaseFieldnames ++ if lizmap then lizmapFieldnames else []

/-- The layers CSV field names (lines 609-611). -/
def layersFieldnames : List String :=
  ["datasource", "layer_names", "projects"]

/-- The tables CSV field names (lines 641-643). -/
def tablesFieldnames : List String :=
  ["table", "projects"]

/-- The keys of the per-project dict, in the insertion order of lines
435-547. -/
def projectRowKeys (lizmap : Bool) : List String :=
  ["path", "basename", "last_modified", "crs", "layer_count", "memory_usage_mb",
   "invalid_layer_count", "print_layout_count", "print_layout_pictures_paths",
   "print_layout_pictures_sizes", "print_layout_pictures_total_size",
   "print_layout_pictures_total_size_mb", "trust_option_active", "last_save_version"]
    ++ if lizmap then lizmapFieldnames else []

/-- `csv.DictWriter`: a row dict is written as one cell per field name, in
field-name order. -/
def dictWriterRow (fieldnames : List String) (row : List (String × String)) : List String :=
  fieldnames.map (fun fn => (row.lookup fn).getD "")

/-- A CSV file as written by `DictWriter`: the header then the rows. -/
def csvTable (fieldnames : List String) (rows : List (List (String × String))) :
    List (List String) :=
  fieldnames :: rows.map (dictWriterRow fieldnames)

/-- The `layer_item` dicts (lines 600-607): one row per key of
`exported_datasources`, in sorted-key order, lists joined with `|`. -/
def layersCsvRows (m : List (String × DsEntry)) : List (List (String × String)) :=
  (sortedKeys m).map (fun k =>
    let e := entryD m k ⟨[], []⟩
    [("datasource", k), ("layer_names", String.intercalate "|" e.names),
     ("projects", String.intercalate "|" e.projects)])

/-- The `table_item` dicts (lines 632-639). -/
def tablesCsvRows (m : List (String × List String)) : List (List (String × String)) :=
  (sortedKeys m).map (fun k =>
    [("table", k), ("projects", String.intercalate "|" (entryD m k []))])

/-- The layers CSV file produced from the datasources map. -/
def layersCsvFile (m : List (String × DsEntry)) : List (List String) :=
  csvTable layersFieldnames (layersCsvRows m)

/-- The tables CSV file produced from the tables map. -/
def tablesCsvFile (m : List (String × List String)) : List (List String) :=
  csvTable tablesFieldnames (tablesCsvRows m)

/-! ### AuditQGISProjects.py: run-level output behaviour (lines 279-296,
563-657) -/

/-- The log lines and created files the run-level behaviour under audit
produces: with no matching project file the algorithm logs the message of
line 285 and returns before opening any output file; otherwise it writes the
projects CSV and, for each optional output that is not `TEMPORARY_OUTPUT`,
that CSV as well. -/
structure AuditOutputs where
  logs : List String
  written : List String
deriving DecidableEq

/-- The run-level output behaviour of `processAlgorithm` as a function of
the collected project files. -/
def auditRunOutputs (P : AuditParams) (prs : List ProjectInfo) : AuditOutputs :=
  if prs.isEmpty then
    { logs := ["Fetching the list of QGIS project files...",
               "-> No project found in the given directory !"],
      written := [] }
  else
    { logs := ["Fetching the list of QGIS project files...",
               "Parsing each project file...",
               "-> The project files have been parsed !"],
      written := [P.outProjects]
        ++ (if P.outLayers != "TEMPORARY_OUTPUT" then [P.outLayers] else [])
        ++ (if P.outTables != "TEMPORARY_OUTPUT" then [P.outTables] else []) }

/-! ### main_color.py -/

/-- One item of the legend config built by `getLayerLegendConfig`. -/
structure LegendItem where
  label : String
  expression : String
  color : String
deriving DecidableEq

/-- The message of the `TypeError` raised when `self.feedback(...)` is
executed: `self.feedback` is a `QgsProcessingFeedback` object, not a
callable (lines 242 and 296 of main_color.py). -/
def typeErrFeedback : String :=
  "TypeError: QgsProcessingFeedback object is not callable"

/-- One symbol as `getSymbolMainColor` sees it: the number of its symbol
layers and the color string the non-raising path computes (lines 315-330;
the color/opacity arithmetic is the host toolkit's and is carried as an
opaque result). -/
structure Symbol where
  layerCount : Nat
  mainColor : String
deriving DecidableEq

/-- One category of a `categorizedSymbol` renderer (label, class value,
symbol). -/
structure Category where
  label : String
  value : String
  symbol : Symbol
deriving DecidableEq

/-- One range of a `graduatedSymbol` renderer; lower/upper bounds are
carried as their string renderings (they are interpolated into the
expression text). -/
structure RangeItem where
  label : String
  lower : String
  upper : String
  symbol : Symbol
deriving DecidableEq

/-- One rule of a `RuleRenderer` (label, filter expression, symbol). -/
structure Rule where
  label : String
  filterExpr : String
  symbol : Symbol
deriving DecidableEq

/-- The renderer of the input layer, by `renderer.type()` (lines 240-287);
`other` covers any type matching none of the four branches, for which
`getLayerLegendConfig` returns the empty config. -/
inductive Renderer where
  | singleSymbol (layerName : String) (symbol : Symbol)
  | categorized (classAttribute : String) (categories : List Category)
  | graduated (classAttribute : String) (ranges : List RangeItem)
  | ruleBased (rules : List Rule)
  | other (rendererType : String)
deriving DecidableEq

/-- `getSymbolMainColor` (lines 289-330): when
`-1 < self.symbol_level <= len(symbol_layers) - 1` the first statement of
the block is `self.feedback(...)` (line 296), which raises `TypeError`;
otherwise `color` stays unset and the `symbol.color()` best-guess path
returns the computed color string. -/
def getSymbolMainColor (symbolLevel : Int) (sym : Symbol) : Except String String :=
  if -1 < symbolLevel && symbolLevel ≤ (sym.layerCount : Int) - 1 then
    .error typeErrFeedback
  else
    .ok sym.mainColor

/-- Python `s.replace("'", "\\'")`: the pattern is a single character, so
the replacement is character-wise. -/
def escapeSingleQuotes (s : String) : String :=
  ⟨s.data.flatMap (fun c => if c = '\x27' then ['\\', '\x27'] else [c])⟩

/-- The shared shape of the three renderer loops of `getLayerLegendConfig`
(lines 250-286): per entry, `getSymbolMainColor` is called (and its
`TypeError` propagates), then the legend item is appended. -/
def legendConfigLoop {α : Type} (symbolLevel : Int) (mkItem : α → String → LegendItem)
    (symOf : α → Symbol) : List α → Except String (List LegendItem)
  | [] => .ok []
  | a :: rest =>
    match getSymbolMainColor symbolLevel (symOf a) with
    | .error e => .error e
    | .ok color =>
      match legendConfigLoop symbolLevel mkItem symOf rest with
      | .error e => .error e
      | .ok items => .ok (mkItem a color :: items)

/-- `getLayerLegendConfig` (lines 237-287).  For a `singleSymbol` renderer
the branch starts with `self.feedback(self.layer.name())` (line 242),
raising `TypeError`; the other three branches build one item per
category/range/rule via `getSymbolMainColor`; any other renderer type
returns the empty config. -/
def getLayerLegendConfig (symbolLevel : Int) (r : Renderer) :
    Except String (List LegendItem) :=
  match r with
  | .singleSymbol _ _ => .error typeErrFeedback
  | .categorized attr cats =>
      legendConfigLoop symbolLevel
        (fun c color =>
          ⟨c.label, attr ++ " = \x27" ++ escapeSingleQuotes c.value ++ "\x27", color⟩)
        (fun c => c.symbol) cats
  | .graduated attr ranges =>
      legendConfigLoop symbolLevel
        (fun a color =>
          ⟨a.label, a.lower ++ " <= ( " ++ attr ++ " ) AND ( " ++ attr ++ " ) < " ++ a.upper,
           color⟩)
        (fun a => a.symbol) ranges
  | .ruleBased rules =>
      legendConfigLoop symbolLevel
        (fun a color => ⟨a.label, a.filterExpr, color⟩)
        (fun a => a.symbol) rules
  | .other _ => .ok []

/-- `getColorExpressionFromSymbology` (lines 340-354): calls
`getLayerLegendConfig` (whose `TypeError` propagates), then builds
` CASE  WHEN ... ELSE 'rgba(255,255,255,0.0)' END` and returns it when it is
truthy (`if expression: exp = expression`; `none` models Python `None`). -/
def getColorExpressionFromSymbology (symbolLevel : Int) (r : Renderer) :
    Except String (Option String) :=
  match getLayerLegendConfig symbolLevel r with
  | .error e => .error e
  | .ok items =>
    let expression := items.foldl (fun acc it =>
      acc ++ " WHEN " ++ it.expression ++ " THEN \x27rgba(" ++ it.color ++ ")\x27") " CASE "
    let expression := expression ++ " ELSE \x27rgba(255,255,255,0.0)\x27"
    let expression := expression ++ " END"
    .ok (if expression == "" then none else some expression)

/-- `getLabelExpressionFromSymbology` (lines 356-370). -/
def getLabelExpressionFromSymbology (symbolLevel : Int) (r : Renderer) :
    Except String (Option String) :=
  match getLayerLegendConfig symbolLevel r with
  | .error e => .error e
  | .ok items =>
    let expression := items.foldl (fun acc it =>
      acc ++ " WHEN " ++ it.expression ++ " THEN \x27" ++
        escapeSingleQuotes it.label ++ "\x27") " CASE "
    let expression := expression ++ " ELSE NULL"
    let expression := expression ++ " END"
    .ok (if expression == "" then none else some expression)

/-- Python falsiness of an optional string (`not x`). -/
def optStrFalsy (o : Option String) : Bool :=
  match o with
  | none => true
  | some s => s == ""

/-- Lines 164-168 of `processAlgorithm`: the color expression is computed
first, then the label expression (either `TypeError` propagates), then the
guard of `raise QgsProcessingException('Color expression or label expression
cannot be generated')` is evaluated. -/
def mainColorGuardOutcome (symbolLevel : Int) (r : Renderer) : Except String Bool :=
  match getColorExpressionFromSymbology symbolLevel r with
  | .error e => .error e
  | .ok c =>
    match getLabelExpressionFromSymbology symbolLevel r with
    | .error e => .error e
    | .ok l => .ok (optStrFalsy c || optStrFalsy l)

/-- One feature of the main-color feature loop, with the values the two
prepared expressions evaluate to on it (expression evaluation is the host
toolkit's). -/
structure MCFeature where
  fid : Nat
  colorVal : String
  labelVal : String
deriving DecidableEq

/-- The `for current, feature in enumerate(features)` loop (lines 192-219):
each iteration polls `feedback.isCanceled()` (`cancel k` is the `k`-th poll)
and breaks when it is true; otherwise it records the two attribute changes
for the feature. -/
def mainColorLoop (cancel : Nat → Bool) : Nat → List MCFeature → List (Nat × String × String)
  | _, [] => []
  | k, f :: fs =>
    if cancel k then []
    else (f.fid, f.colorVal, f.labelVal) :: mainColorLoop cancel (k + 1) fs

/-! ### add_joins_for_relation_fields.py -/

/-- The message of the `AttributeError` raised when `.name()` (or another
attribute) is accessed on `None` (add_joins_for_relation_fields.py lines
89-92 and 122-126). -/
def noneAttrError : String :=
  "AttributeError: NoneType object has no attribute name"

/-- One value-relation field of a layer: whether
`context.project().mapLayer(target_layer)` finds the join target (line 122;
when it does not, line 125 calls `join_layer.name()` on `None`), and the
outcome `layer.addJoin` reports for the join built from it. -/
structure VRField where
  name : String
  joinLayerFound : Bool
  addJoinOk : Bool
deriving DecidableEq

/-- One input layer of the joins script: its name, whether
`context.project().mapLayer(layer.id())` finds it, and its value-relation
fields. -/
structure JoinLayer where
  name : String
  inProject : Bool
  vrFields : List VRField
deriving DecidableEq

/-- The `for field in layer.fields()` loop restricted to the value-relation
fields (lines 104-133): a join target missing from the project makes
`join_layer.name()` (line 125) raise an uncaught `AttributeError`, aborting
the run; a failing `addJoin` appends the layer name to `failed` and
continues with the next field. -/
def joinsFieldsLoop (layerName : String) (failed : List String) :
    List VRField → Except String (List String)
  | [] => .ok failed
  | f :: fs =>
    if !f.joinLayerFound then .error noneAttrError
    else if !f.addJoinOk then joinsFieldsLoop layerName (failed ++ [layerName]) fs
    else joinsFieldsLoop layerName failed fs

/-- The `for i, layer in enumerate(self.layers)` loop (lines 87-160).  The
body reassigns `layer` to the project lookup; when the lookup returns `None`
the error report itself evaluates `layer.name()` on `None` (line 92) and the
run aborts with an uncaught `AttributeError`.  Otherwise the layer's
value-relation fields are processed.  On normal completion returns the names
of the layers whose body completed together with the accumulated `failed`
list. -/
def joinsLayersLoop (visited failed : List String) :
    List JoinLayer → Except String (List String × List String)
  | [] => .ok (visited, failed)
  | l :: ls =>
    if !l.inProject then .error noneAttrError
    else
      match joinsFieldsLoop l.name failed l.vrFields with
      | .error e => .error e
      | .ok failed2 => joinsLayersLoop (visited ++ [l.name]) failed2 ls

/-- Lines 162-164: after the loop, a non-empty `failed` list raises a single
`QgsProcessingException` naming every failed item; an uncaught error from
the loop itself propagates instead. -/
def joinsRunResult (layers : List JoinLayer) : Except String Unit :=
  match joinsLayersLoop [] [] layers with
  | .error e => .error e
  | .ok (_, failed) =>
    if failed.isEmpty then .ok ()
    else .error ("Some joins failed to be added for : " ++ String.intercalate ", " failed)

/-- A layer on which the loop body raises no `AttributeError`: it is found
in the project and every value-relation join target resolves. -/
def joinLayerResolvable (l : JoinLayer) : Bool :=
  l.inProject && l.vrFields.all (fun f => f.joinLayerFound)

/-- Specification-side `failed` list: one entry of the layer's name per
value-relation field whose `addJoin` fails, in processing order. -/
def joinsFailedSpec (layers : List JoinLayer) : List String :=
  layers.flatMap (fun l =>
    (l.vrFields.filter (fun f => !f.addJoinOk)).map (fun _ => l.name))

/-! ### disable_or_exclude_fields_starting_with.py (lines 100-139) -/

/-- The field names collected by `excluded_fields.append(name)` (lines
116-119): the fields whose name starts with the (truthy) excluded-fields
pattern. -/
def excludedFieldsOf (pattern : String) (fields : List String) : List String :=
  if pattern == "" then [] else fields.filter (fun n => strStarts n pattern)

/-- The field names collected by `pk_fields.append(name)` (lines 120-123):
when `EXCLUDE_PRIMARY_KEY` is set, the fields whose index
(`indexFromName`, i.e. first index of the name) is a primary-key index. -/
def pkFieldsOf (excludePk : Bool) (fields : List String) (pks : List Nat) : List String :=
  if excludePk then fields.filter (fun n => pks.contains (fields.indexOf n)) else []

/-- The per-layer update of the WMS and WFS exclusion lists (lines 131-137):
a non-empty `excluded_fields` is appended to both lists, a non-empty
`pk_fields` is then appended to the WMS list only. -/
def updateExclusions (pattern : String) (excludePk : Bool) (fields : List String)
    (pks : List Nat) (wms wfs : List String) : List String × List String :=
  let ex := excludedFieldsOf pattern fields
  let pkf := pkFieldsOf excludePk fields pks
  let wms1 := if ex.isEmpty then wms else wms ++ ex
  let wfs1 := if ex.isEmpty then wfs else wfs ++ ex
  let wms2 := if pkf.isEmpty then wms1 else wms1 ++ pkf
  (wms2, wfs1)

/-! ## Theorems -/

theorem charToNat_ofNat {n : Nat} (h : n.isValidChar) : (Char.ofNat n).toNat = n := by
  unfold Char.ofNat
  rw [dif_pos h]
  simp [Char.ofNatAux, Char.toNat, UInt32.toNat]

theorem isWordChar_toLower (c : Char) : isWordChar c.toLower = isWordChar c := by
  unfold Char.toLower
  by_cases h : c.toNat ≥ 65 ∧ c.toNat ≤ 90
  · rw [if_pos h]
    have hv : (c.toNat + 32).isValidChar := by
      left
      omega
    simp only [isWordChar, charToNat_ofNat hv]
    rw [Bool.eq_iff_iff]
    simp only [Bool.or_eq_true, Bool.and_eq_true, decide_eq_true_eq, beq_iff_eq]
    omega
  · rw [if_neg h]

theorem isWordChar_of_charMatch {ic : Bool} {a b : Char}
    (hm : charMatch ic a b = true) (hb : isWordChar b = true) : isWordChar a = true := by
  cases ic with
  | false =>
    simp only [charMatch, Bool.false_eq_true, if_false, beq_iff_eq] at hm
    subst hm; exact hb
  | true =>
    simp only [charMatch, if_true, beq_iff_eq] at hm
    rw [← isWordChar_toLower a, hm, isWordChar_toLower b]
    exact hb

theorem litMatch_wordCharAt {ic : Bool} {t p : List Char}
    (hm : litMatch ic t p = true) (hw : ∀ c ∈ p, isWordChar c = true) :
    ∀ j, j < p.length → wordCharAt t j = true := by
  induction p generalizing t with
  | nil => intro j hj; simp at hj
  | cons b pt ih =>
    cases t with
    | nil => simp [litMatch] at hm
    | cons a ts =>
      simp only [litMatch, Bool.and_eq_true] at hm
      intro j hj
      cases j with
      | zero =>
        simp only [wordCharAt, List.getElem?_cons_zero]
        exact isWordChar_of_charMatch hm.1 (hw b (List.mem_cons_self b pt))
      | succ k =>
        have := ih hm.2 (fun c hc => hw c (List.mem_cons_of_mem b hc)) k
          (Nat.lt_of_succ_lt_succ hj)
        simpa [wordCharAt, List.getElem?_cons_succ] using this

theorem wordCharAt_drop (s : List Char) (i j : Nat) :
    wordCharAt (s.drop i) j = wordCharAt s (i + j) := by
  simp [wordCharAt, List.getElem?_drop]

/-- **C3.** `change_datasource_projects.py` (lines 86-93, 114-122): with the
`FULLWORD` option the compiled pattern is `\b<escaped pattern>\b`, so an
occurrence of the pattern that is a proper substring of a longer word (a word
character of the subject is adjacent to the occurrence on a side) is not
replaced; a datasource in which the pattern occurs only as such a substring is
left unchanged by the `count=1` substitution, for either value of
`IGNORECASE`. -/
theorem fullword_substring_unchanged (ic : Bool) (p repl s : List Char)
    (hp : p ≠ [])
    (hw : ∀ c ∈ p, isWordChar c = true)
    (hocc : ∀ i, i ≤ s.length → litMatchAt ic s p i = true →
      (0 < i ∧ wordCharAt s (i - 1) = true) ∨ wordCharAt s (i + p.length) = true) :
    reSubOnce ic true p repl s = s := by
  have hplen : 0 < p.length := List.length_pos.mpr hp
  have hnone : findMatchPos ic true p s = none := by
    unfold findMatchPos
    rw [List.find?_eq_none]
    intro i hi
    rw [List.mem_range] at hi
    intro hmatch
    simp only [matchPos, Bool.and_eq_true, Bool.or_eq_true] at hmatch
    obtain ⟨hlit, hbd⟩ := hmatch
    have hbd2 : boundary s i = true ∧ boundary s (i + p.length) = true := by
      rcases hbd with h | h
      · simp at h
      · exact ⟨h.1, h.2⟩
    have hwords : ∀ j, j < p.length → wordCharAt s (i + j) = true := by
      intro j hj
      have := litMatch_wordCharAt (t := s.drop i) hlit hw j hj
      rwa [wordCharAt_drop] at this
    have hfirst : wordCharAt s i = true := by
      have := hwords 0 hplen
      simpa using this
    have hlast : wordCharAt s (i + p.length - 1) = true := by
      have := hwords (p.length - 1) (by omega)
      have he : i + (p.length - 1) = i + p.length - 1 := by omega
      rwa [he] at this
    rcases hocc i (Nat.le_of_lt_succ hi) hlit with ⟨hipos, hleft⟩ | hright
    · have : boundary s i = false := by
        unfold boundary
        rw [if_neg (Nat.pos_iff_ne_zero.mp hipos), hleft, hfirst]
        rfl
      rw [this] at hbd2
      exact Bool.false_ne_true hbd2.1
    · have hne : ¬(i + p.length = 0) := by omega
      have : boundary s (i + p.length) = false := by
        unfold boundary
        rw [if_neg hne, hlast, hright]
        rfl
      rw [this] at hbd2
      exact Bool.false_ne_true hbd2.2
  unfold reSubOnce
  rw [hnone]

/-- Concrete run of **C3**: in the datasource `afoob-xfoo`, every occurrence
of the pattern `foo` sits inside a longer word, so the full-word substitution
changes nothing. -/
theorem fullword_substring_unchanged_witness :
    reSubOnce false true "foo".data "bar".data "afoob-xfoo".data = "afoob-xfoo".data :=
  fullword_substring_unchanged false "foo".data "bar".data "afoob-xfoo".data
    (by decide) (by decide) (by decide)

theorem append_ne_empty_right (a b : String) (hb : b ≠ "") : a ++ b ≠ "" := by
  intro h
  apply hb
  apply String.ext
  have hd := congrArg String.data h
  rw [String.data_append] at hd
  exact (List.append_eq_nil.mp hd).2

theorem optStrFalsy_of_ne (e : String) (he : e ≠ "") :
    optStrFalsy (if e == "" then none else some e) = false := by
  rw [if_neg (by simpa using he)]
  simp [optStrFalsy, he]

/-- **C8 (amended).** `main_color.py`: whenever
`getColorExpressionFromSymbology` or `getLabelExpressionFromSymbology`
returns at all, it returns a non-empty string — the built expression always
carries at least the trailing ` END` — so the guard of the `Color expression
or label expression cannot be generated` exception at lines 167-168 is never
true when execution reaches it.  But the functions do not always return: for
every `singleSymbol` renderer, `getLayerLegendConfig` executes
`self.feedback(self.layer.name())` (line 242) on the non-callable feedback
object and raises `TypeError` (as does `getSymbolMainColor` at line 296
whenever the symbol level selects an existing symbol layer). -/
theorem main_color_guard_unreachable :
    (∀ (lvl : Int) (r : Renderer) (o : Option String),
        getColorExpressionFromSymbology lvl r = .ok o → optStrFalsy o = false)
      ∧ (∀ (lvl : Int) (r : Renderer) (o : Option String),
          getLabelExpressionFromSymbology lvl r = .ok o → optStrFalsy o = false)
      ∧ (∀ (lvl : Int) (r : Renderer) (b : Bool),
          mainColorGuardOutcome lvl r = .ok b → b = false)
      ∧ (∀ (lvl : Int) (nm : String) (sym : Symbol),
          getColorExpressionFromSymbology lvl (Renderer.singleSymbol nm sym)
            = .error typeErrFeedback) := by
  have hend : (" END" : String) ≠ "" := by decide
  have hcolor : ∀ (lvl : Int) (r : Renderer) (o : Option String),
      getColorExpressionFromSymbology lvl r = .ok o → optStrFalsy o = false := by
    intro lvl r o h
    unfold getColorExpressionFromSymbology at h
    cases hcfg : getLayerLegendConfig lvl r with
    | error e =>
      rw [hcfg] at h
      exact absurd h (by simp)
    | ok items =>
      rw [hcfg] at h
      rw [Except.ok.injEq] at h
      rw [← h]
      exact optStrFalsy_of_ne _ (append_ne_empty_right _ _ hend)
  have hlabel : ∀ (lvl : Int) (r : Renderer) (o : Option String),
      getLabelExpressionFromSymbology lvl r = .ok o → optStrFalsy o = false := by
    intro lvl r o h
    unfold getLabelExpressionFromSymbology at h
    cases hcfg : getLayerLegendConfig lvl r with
    | error e =>
      rw [hcfg] at h
      exact absurd h (by simp)
    | ok items =>
      rw [hcfg] at h
      rw [Except.ok.injEq] at h
      rw [← h]
      exact optStrFalsy_of_ne _ (append_ne_empty_right _ _ hend)
  refine ⟨hcolor, hlabel, ?_, fun lvl nm sym => rfl⟩
  intro lvl r b h
  unfold mainColorGuardOutcome at h
  cases hc : getColorExpressionFromSymbology lvl r with
  | error e =>
    rw [hc] at h
    exact absurd h (by simp)
  | ok c =>
    rw [hc] at h
    cases hl : getLabelExpressionFromSymbology lvl r with
    | error e =>
      rw [hl] at h
      exact absurd h (by simp)
    | ok l =>
      rw [hl] at h
      rw [Except.ok.injEq] at h
      rw [← h, hcolor lvl r c hc, hlabel lvl r l hl]
      rfl

theorem main_color_guard_unreachable_witness :
    optStrFalsy (some " CASE  ELSE \x27rgba(255,255,255,0.0)\x27 END") = false :=
  main_color_guard_unreachable.1 0 (Renderer.other "invalidSymbol")
    (some " CASE  ELSE \x27rgba(255,255,255,0.0)\x27 END") (by decide)

/-- Counterexample to **C8** as stated: for a `singleSymbol` renderer (and
for a categorized one whose symbol level selects an existing symbol layer),
the expression functions raise `TypeError` from `self.feedback(...)` instead
of returning a string at all, so they do not "always return a non-empty
string for every symbology configuration". -/
theorem single_symbol_type_error_cex :
    getColorExpressionFromSymbology 0 (Renderer.singleSymbol "layer1" ⟨1, "10,20,30"⟩)
        = .error typeErrFeedback
      ∧ getLabelExpressionFromSymbology 0 (Renderer.singleSymbol "layer1" ⟨1, "10,20,30"⟩)
        = .error typeErrFeedback
      ∧ mainColorGuardOutcome 0 (Renderer.singleSymbol "layer1" ⟨1, "10,20,30"⟩)
        = .error typeErrFeedback
      ∧ getColorExpressionFromSymbology 0
          (Renderer.categorized "cls" [⟨"lab", "val", ⟨1, "10,20,30"⟩⟩])
        = .error typeErrFeedback := by decide

/-- **C7.** `AuditQGISProjects.py` lines 281-286: with zero matching project
files the run logs `-> No project found in the given directory !` and
returns before any of the three CSV files is opened, so no output file is
created. -/
theorem audit_no_projects_no_outputs (P : AuditParams) (prs : List ProjectInfo)
    (h : prs = []) :
    (auditRunOutputs P prs).written = [] ∧
      "-> No project found in the given directory !" ∈ (auditRunOutputs P prs).logs := by
  subst h
  refine ⟨rfl, ?_⟩
  simp [auditRunOutputs]

theorem audit_no_projects_no_outputs_witness :
    (auditRunOutputs ⟨"/projects", "p.csv", "l.csv", "t.csv", "", "", false⟩ []).written = [] ∧
      "-> No project found in the given directory !" ∈
        (auditRunOutputs ⟨"/projects", "p.csv", "l.csv", "t.csv", "", "", false⟩ []).logs :=
  audit_no_projects_no_outputs ⟨"/projects", "p.csv", "l.csv", "t.csv", "", "", false⟩ [] rfl

theorem dictWriterRow_layers (k n p : String) :
    dictWriterRow layersFieldnames
      [("datasource", k), ("layer_names", n), ("projects", p)] = [k, n, p] := rfl

theorem dictWriterRow_tables (k p : String) :
    dictWriterRow tablesFieldnames [("table", k), ("projects", p)] = [k, p] := rfl

/-- **C4.** The CSV outputs carry exactly the declared columns in the
declared order: the projects CSV header is the 14 base columns, extended by
the five Lizmap columns exactly when the option is set, and every projects
row dict provides exactly those columns; the layers CSV is
`datasource, layer_names, projects` and the tables CSV `table, projects`,
with the list-valued cells joined by `|`. -/
theorem csv_columns_declared :
    projectsFieldnames false =
      ["path", "basename", "last_modified", "crs",
       "layer_count", "invalid_layer_count", "memory_usage_mb",
       "print_layout_count", "print_layout_pictures_paths", "print_layout_pictures_sizes",
       "print_layout_pictures_total_size", "print_layout_pictures_total_size_mb",
       "trust_option_active", "last_save_version"] ∧
    projectsFieldnames true = projectsFieldnames false ++
      ["has_lizmap_config", "qgis_desktop_version", "lizmap_plugin_version",
       "lizmap_web_client_target_version", "project_valid"] ∧
    layersFieldnames = ["datasource", "layer_names", "projects"] ∧
    tablesFieldnames = ["table", "projects"] ∧
    (projectRowKeys false).Perm (projectsFieldnames false) ∧
    (projectRowKeys true).Perm (projectsFieldnames true) ∧
    (∀ m : List (String × DsEntry), layersCsvFile m = layersFieldnames ::
      (sortedKeys m).map (fun k =>
        [k, String.intercalate "|" (entryD m k ⟨[], []⟩).names,
         String.intercalate "|" (entryD m k ⟨[], []⟩).projects])) ∧
    (∀ m : List (String × List String), tablesCsvFile m = tablesFieldnames ::
      (sortedKeys m).map (fun k => [k, String.intercalate "|" (entryD m k [])])) := by
  refine ⟨by decide, by decide, rfl, rfl, by decide, by decide, ?_, ?_⟩
  · intro m
    simp only [layersCsvFile, csvTable, layersCsvRows, List.map_map]
    refine congrArg (layersFieldnames :: ·) (List.map_congr_left ?_)
    intro k _
    exact dictWriterRow_layers _ _ _
  · intro m
    simp only [tablesCsvFile, csvTable, tablesCsvRows, List.map_map]
    refine congrArg (tablesFieldnames :: ·) (List.map_congr_left ?_)
    intro k _
    exact dictWriterRow_tables _ _

/-- **C10 (amended).** For every processed PostgreSQL layer the WMS and WFS
exclusion lists are only extended (the previous lists are prefixes of the
new ones); every primary-key field selected for exclusion enters the WMS
list; the WFS additions are exactly the fields matching the excluded-fields
prefix pattern, so `pk_fields` as such is never appended to the WFS list and
a primary-key field enters the WFS list only when it independently matches
that pattern. -/
theorem exclusions_grow_pk_wms_only (pattern : String) (excludePk : Bool)
    (fields : List String) (pks : List Nat) (wms wfs : List String) :
    (wms <+: (updateExclusions pattern excludePk fields pks wms wfs).1) ∧
    (wfs <+: (updateExclusions pattern excludePk fields pks wms wfs).2) ∧
    ((updateExclusions pattern excludePk fields pks wms wfs).2 =
      wfs ++ excludedFieldsOf pattern fields) ∧
    (∀ f, f ∈ pkFieldsOf excludePk fields pks →
      f ∈ (updateExclusions pattern excludePk fields pks wms wfs).1) ∧
    (∀ f, f ∈ pkFieldsOf excludePk fields pks → f ∉ excludedFieldsOf pattern fields →
      f ∈ (updateExclusions pattern excludePk fields pks wms wfs).2 → f ∈ wfs) := by
  unfold updateExclusions
  refine ⟨?_, ?_, ?_, ?_, ?_⟩
  · dsimp only
    split
    · split
      · exact List.prefix_rfl
      · exact List.prefix_append wms _
    · split
      · exact List.prefix_append wms _
      · exact (List.prefix_append wms _).trans (List.prefix_append _ _)
  · dsimp only
    split
    · exact List.prefix_rfl
    · exact List.prefix_append wfs _
  · dsimp only
    split
    · next hx => rw [List.isEmpty_iff.mp hx, List.append_nil]
    · rfl
  · intro f hf
    dsimp only
    have hne : ¬ (pkFieldsOf excludePk fields pks).isEmpty = true := by
      intro hx
      rw [List.isEmpty_iff.mp hx] at hf
      exact (List.not_mem_nil f) hf
    rw [if_neg hne]
    exact List.mem_append_right _ hf
  · intro f hpk hex hmem
    dsimp only at hmem
    split at hmem
    · exact hmem
    · rcases List.mem_append.mp hmem with h | h
      · exact h
      · exact absurd h hex

theorem exclusions_grow_pk_wms_only_witness :
    "pk1" ∈ (updateExclusions "x" true ["pk1", "xcol"] [0] [] []).1 := by
  have h := exclusions_grow_pk_wms_only "x" true ["pk1", "xcol"] [0] [] []
  exact h.2.2.2.1 "pk1" (by decide)

/-- Counterexample to **C10** as stated: with fields `["id"]`, primary key
index `0`, excluded-fields pattern `"i"` and `EXCLUDE_PRIMARY_KEY` set, the
field `id` is a primary-key field selected for exclusion and it ends up in
the WFS exclusion list (via the pattern path), so "never added to the WFS
exclusion list" fails. -/
theorem pk_field_in_wfs_cex :
    "id" ∈ pkFieldsOf true ["id"] [0] ∧
    (updateExclusions "i" true ["id"] [0] [] []).2 = ["id"] ∧
    "id" ∈ (updateExclusions "i" true ["id"] [0] [] []).2 := by decide

/-- **C2** (evaluation at the failing input): on a project file with two
datasource texts `a`, pattern `a`, replacement `b` and backups enabled,
`_replace_datasources` leaves the `.bak` file holding `["b", "a"]` — the
content after the first replacement — instead of the pre-run content
`["a", "a"]`, because the backup/move/write block is nested inside the
per-node loop. -/
theorem backup_overwritten_two_changes :
    (replaceDatasourcesRun (reSubOnce false false "a".data "b".data) true
        ["a".data, "a".data]).changed = true ∧
    (replaceDatasourcesRun (reSubOnce false false "a".data "b".data) true
        ["a".data, "a".data]).pathContent = ["b".data, "b".data] ∧
    (replaceDatasourcesRun (reSubOnce false false "a".data "b".data) true
        ["a".data, "a".data]).bak = some ["b".data, "a".data] ∧
    (replaceDatasourcesRun (reSubOnce false false "a".data "b".data) true
        ["a".data, "a".data]).bak ≠ some ["a".data, "a".data] := by decide

theorem replaceRun_aux (sub : List Char → List Char) (backups : Bool)
    (dss : List (List Char)) :
    ∀ n, n ≤ dss.length →
      (((List.range n).foldl (replaceStep sub backups) ⟨dss, dss, none, false⟩).changed
          = (dss.take n).any (fun ds => sub ds != ds))
        ∧ ∀ j, n ≤ j →
          ((List.range n).foldl (replaceStep sub backups) ⟨dss, dss, none, false⟩).dom.getD j []
            = dss.getD j [] := by
  intro n
  induction n with
  | zero => exact fun _ => ⟨rfl, fun j _ => rfl⟩
  | succ k ih =>
    intro hk
    obtain ⟨hc, hdom⟩ := ih (Nat.le_of_succ_le hk)
    rw [List.range_succ, List.foldl_append, List.foldl_cons, List.foldl_nil]
    have hklt : k < dss.length := hk
    have hgetk : dss[k]? = some (dss.get ⟨k, hklt⟩) := List.getElem?_eq_getElem hklt
    have hgetd : dss.getD k [] = dss.get ⟨k, hklt⟩ := by
      rw [List.getD_eq_getElem?_getD, hgetk]
      rfl
    have htake : (dss.take (k + 1)).any (fun ds => sub ds != ds)
        = ((dss.take k).any (fun ds => sub ds != ds)
            || (sub (dss.get ⟨k, hklt⟩) != dss.get ⟨k, hklt⟩)) := by
      rw [List.take_succ, List.any_append, hgetk]
      simp
    set st := (List.range k).foldl (replaceStep sub backups) ⟨dss, dss, none, false⟩ with hst
    have hknow : st.dom.getD k [] = dss.getD k [] := hdom k le_rfl
    by_cases hch : sub (st.dom.getD k []) = st.dom.getD k []
    · have hstep : replaceStep sub backups st k = st := by
        rw [replaceStep, if_pos hch]
      rw [hstep]
      constructor
      · rw [hc, htake]
        have : (sub (dss.get ⟨k, hklt⟩) != dss.get ⟨k, hklt⟩) = false := by
          rw [bne_eq_false_iff_eq]
          rw [hknow, hgetd] at hch
          exact hch
        rw [this, Bool.or_false]
      · intro j hj
        exact hdom j (Nat.le_of_succ_le hj)
    · have hstep : replaceStep sub backups st k =
          { dom := st.dom.set k (sub (st.dom.getD k []))
            pathContent := st.dom.set k (sub (st.dom.getD k []))
            bak := if backups then some st.pathContent else none
            changed := true } := by
        rw [replaceStep, if_neg hch]
      rw [hstep]
      constructor
      · rw [htake]
        have : (sub (dss.get ⟨k, hklt⟩) != dss.get ⟨k, hklt⟩) = true := by
          rw [bne_iff_ne]
          rw [hknow, hgetd] at hch
          exact hch
        rw [this, Bool.or_true]
      · intro j hj
        have hne : k ≠ j := by omega
        show (st.dom.set k (sub (st.dom.getD k []))).getD j [] = dss.getD j []
        rw [List.getD_eq_getElem?_getD, List.getElem?_set_ne hne,
          ← List.getD_eq_getElem?_getD]
        exact hdom j (by omega)

theorem replaceRun_changed_eq (sub : List Char → List Char) (backups : Bool)
    (dss : List (List Char)) :
    (replaceDatasourcesRun sub backups dss).changed = dss.any (fun ds => sub ds != ds) := by
  have h := (replaceRun_aux sub backups dss dss.length le_rfl).1
  rw [List.take_length] at h
  exact h

theorem iterateRun_foldl (sub : List Char → List Char) (backups : Bool)
    (files : List RewriteFile) (acc : IterOutcome) :
    ((files.foldl (iterStep sub backups) acc).attempted
        = acc.attempted ++ files.map (fun f => f.path))
      ∧ ((files.foldl (iterStep sub backups) acc).modified
        = acc.modified ++ (files.filter (fileChanged sub)).map (fun f => f.path))
      ∧ ((files.foldl (iterStep sub backups) acc).errors
        = acc.errors ++ files.filterMap fileErrMsg) := by
  induction files generalizing acc with
  | nil => simp
  | cons f fs ih =>
    rw [List.foldl_cons]
    obtain ⟨ha, hm, he⟩ := ih (iterStep sub backups acc f)
    rw [ha, hm, he]
    rcases f with ⟨p, c⟩
    cases c with
    | error e =>
      refine ⟨?_, ?_, ?_⟩ <;>
        simp [iterStep, processFile, fileChanged, fileErrMsg]
    | ok dss =>
      by_cases hch : dss.any (fun ds => sub ds != ds) = true
      · refine ⟨?_, ?_, ?_⟩ <;>
          simp [iterStep, processFile, fileChanged, fileErrMsg,
            replaceRun_changed_eq, hch]
      · rw [Bool.not_eq_true] at hch
        refine ⟨?_, ?_, ?_⟩ <;>
          simp [iterStep, processFile, fileChanged, fileErrMsg,
            replaceRun_changed_eq, hch]

/-- **C9.** `change_datasource_projects.py`: `OUTPUT_MODIFIED_COUNT` equals
the number of collected project files whose processing raises no exception
and in which the substitution changes at least one datasource text; the
modified list has exactly one entry per such file (so each file contributes
at most one), and a file whose processing raises is reported through the
error channel and contributes nothing to the count. -/
theorem modified_count_characterized (ic fw : Bool) (pat repl : List Char)
    (backups : Bool) (files : List RewriteFile) :
    updateProjectDatasourcesResult (reSubOnce ic fw pat repl) backups files
        = .ok ((files.filter (fileChanged (reSubOnce ic fw pat repl))).length)
      ∧ (iterateRun (reSubOnce ic fw pat repl) backups files).modified
          = (files.filter (fileChanged (reSubOnce ic fw pat repl))).map (fun f => f.path)
      ∧ (iterateRun (reSubOnce ic fw pat repl) backups files).errors
          = files.filterMap fileErrMsg := by
  obtain ⟨ha, hm, he⟩ :=
    iterateRun_foldl (reSubOnce ic fw pat repl) backups files ⟨[], [], []⟩
  have hm2 : (iterateRun (reSubOnce ic fw pat repl) backups files).modified
      = (files.filter (fileChanged (reSubOnce ic fw pat repl))).map (fun f => f.path) := by
    rw [iterateRun, hm]
    rfl
  refine ⟨?_, hm2, ?_⟩
  · rw [updateProjectDatasourcesResult, hm2, List.length_map]
  · rw [iterateRun, he]
    rfl

theorem joinsFieldsLoop_ok (layerName : String) :
    ∀ (fs : List VRField) (failed : List String),
      fs.all (fun f => f.joinLayerFound) = true →
      joinsFieldsLoop layerName failed fs
        = .ok (failed ++ (fs.filter (fun f => !f.addJoinOk)).map (fun _ => layerName)) := by
  intro fs
  induction fs with
  | nil =>
    intro failed _
    simp [joinsFieldsLoop]
  | cons f ft ih =>
    intro failed hall
    simp only [List.all_cons, Bool.and_eq_true] at hall
    cases hok : f.addJoinOk with
    | true =>
      simp [joinsFieldsLoop, hall.1, hok, ih _ hall.2, List.filter_cons]
    | false =>
      simp [joinsFieldsLoop, hall.1, hok, ih _ hall.2, List.filter_cons]

theorem joinsLayersLoop_ok :
    ∀ (layers : List JoinLayer) (visited failed : List String),
      (∀ l ∈ layers, joinLayerResolvable l = true) →
      joinsLayersLoop visited failed layers
        = .ok (visited ++ layers.map (fun l => l.name), failed ++ joinsFailedSpec layers) := by
  intro layers
  induction layers with
  | nil =>
    intro v f _
    simp [joinsLayersLoop, joinsFailedSpec]
  | cons l ls ih =>
    intro v f hall
    have hl := hall l (List.mem_cons_self l ls)
    rw [joinLayerResolvable, Bool.and_eq_true] at hl
    rw [joinsLayersLoop]
    rw [show (!l.inProject) = false by simp [hl.1]]
    rw [if_neg (by simp)]
    rw [joinsFieldsLoop_ok l.name l.vrFields f hl.2]
    dsimp only
    rw [ih (v ++ [l.name]) _ (fun l2 hm => hall l2 (List.mem_cons_of_mem l hm))]
    simp [joinsFailedSpec, List.append_assoc]

theorem joinsLayersLoop_abort :
    ∀ (pre : List JoinLayer) (l : JoinLayer) (post : List JoinLayer)
      (visited failed : List String),
      (∀ l2 ∈ pre, joinLayerResolvable l2 = true) → l.inProject = false →
      joinsLayersLoop visited failed (pre ++ l :: post) = .error noneAttrError := by
  intro pre
  induction pre with
  | nil =>
    intro l post v f _ hbad
    rw [List.nil_append, joinsLayersLoop]
    rw [show (!l.inProject) = true by simp [hbad]]
    rw [if_pos rfl]
  | cons p pt ih =>
    intro l post v f hall hbad
    have hp := hall p (List.mem_cons_self p pt)
    rw [joinLayerResolvable, Bool.and_eq_true] at hp
    rw [List.cons_append, joinsLayersLoop]
    rw [show (!p.inProject) = false by simp [hp.1]]
    rw [if_neg (by simp)]
    rw [joinsFieldsLoop_ok p.name p.vrFields f hp.2]
    exact ih l post _ _ (fun l2 hm => hall l2 (List.mem_cons_of_mem p hm)) hbad

/-- **C5 (amended).** In the joins script, an `addJoin` failure on one item
does not abort the remaining work: when every selected layer and every join
target resolves, the loop completes every layer, accumulates the layer name
once per failed `addJoin`, and raises a single terminal
`QgsProcessingException` at the end exactly when that list is non-empty.  A
selected layer missing from the project, however, aborts the run right
there: the error report itself calls `layer.name()` on `None` (line 92) and
the `AttributeError` is uncaught, so no later layer is visited.  The
datasource-rewrite script attempts every collected file, reports each
failing file immediately through the feedback channel and always terminates
normally with the modified count — it raises no terminal error. -/
theorem per_item_failure_handling (layers : List JoinLayer)
    (sub : List Char → List Char) (backups : Bool) (files : List RewriteFile) :
    ((∀ l ∈ layers, joinLayerResolvable l = true) →
        joinsLayersLoop [] [] layers
            = .ok (layers.map (fun l => l.name), joinsFailedSpec layers)
          ∧ (joinsRunResult layers = .ok () ↔ joinsFailedSpec layers = []))
      ∧ (∀ (pre : List JoinLayer) (l : JoinLayer) (post : List JoinLayer),
          (∀ l2 ∈ pre, joinLayerResolvable l2 = true) → l.inProject = false →
          joinsLayersLoop [] [] (pre ++ l :: post) = .error noneAttrError)
      ∧ ((iterateRun sub backups files).attempted = files.map (fun f => f.path))
      ∧ (∃ n, updateProjectDatasourcesResult sub backups files = .ok n) := by
  refine ⟨?_, fun pre l post hgood hbad => joinsLayersLoop_abort pre l post [] [] hgood hbad,
    ?_, ⟨_, rfl⟩⟩
  · intro hall
    have hloop := joinsLayersLoop_ok layers [] [] hall
    rw [List.nil_append, List.nil_append] at hloop
    refine ⟨hloop, ?_⟩
    rw [joinsRunResult, hloop]
    dsimp only
    by_cases hemp : (joinsFailedSpec layers).isEmpty = true
    · rw [if_pos hemp]
      simp [List.isEmpty_iff.mp hemp]
    · rw [if_neg hemp]
      constructor
      · intro h
        exact Except.noConfusion h
      · intro h
        exact absurd (List.isEmpty_iff.mpr h) hemp
  · have := (iterateRun_foldl sub backups files ⟨[], [], []⟩).1
    rw [iterateRun, this]
    rfl

theorem per_item_failure_handling_witness :
    joinsLayersLoop [] [] [⟨"L1", true, [⟨"f1", true, false⟩]⟩] = .ok (["L1"], ["L1"])
      ∧ joinsLayersLoop [] [] [⟨"L0", true, []⟩, ⟨"LX", false, []⟩]
          = .error noneAttrError := by
  have h1 := per_item_failure_handling [⟨"L1", true, [⟨"f1", true, false⟩]⟩]
    (fun l => l) true []
  have h2 := per_item_failure_handling ([] : List JoinLayer) (fun l => l) true []
  constructor
  · exact ((h1.1 (by decide)).1).trans (by decide)
  · exact h2.2.1 [⟨"L0", true, []⟩] ⟨"LX", false, []⟩ [] (by decide) rfl

/-- Counterexample to **C5** as stated: (i) in the datasource-rewrite script
a failing file (`bad.qgs`, whose processing raises) is reported immediately
and the run still terminates normally with `OUTPUT_MODIFIED_COUNT = 1` — no
accumulated terminal error; (ii) in the joins script a selected layer
missing from the project aborts the run with an uncaught `AttributeError`,
so the remaining layer is never attempted and no accumulated terminal error
is produced. -/
theorem per_item_failure_cex :
    ((iterateRun (reSubOnce false false "a".data "b".data) true
        [⟨"bad.qgs", .error "boom"⟩, ⟨"good.qgs", .ok ["a".data]⟩]).errors ≠ []
      ∧ updateProjectDatasourcesResult (reSubOnce false false "a".data "b".data) true
          [⟨"bad.qgs", .error "boom"⟩, ⟨"good.qgs", .ok ["a".data]⟩] = .ok 1)
      ∧ joinsLayersLoop [] [] [⟨"L1", false, []⟩, ⟨"L2", true, [⟨"f1", true, false⟩]⟩]
          = .error noneAttrError
      ∧ joinsRunResult [⟨"L1", false, []⟩, ⟨"L2", true, [⟨"f1", true, false⟩]⟩]
          = .error noneAttrError := by decide

theorem auditProjectLoop_cancel_bound (P : AuditParams) (cancel : Nat → Bool) :
    ∀ (prs : List ProjectInfo) (k j : Nat) (st : AuditState), cancel (k + j) = true →
      (auditProjectLoop P cancel k st prs).2.length ≤ j := by
  intro prs
  induction prs with
  | nil =>
    intro k j st _
    simp [auditProjectLoop]
  | cons pr rest ih =>
    intro k j st hc
    rw [auditProjectLoop]
    by_cases h0 : cancel k = true
    · rw [if_pos h0]
      simp
    · rw [if_neg h0]
      cases j with
      | zero =>
        rw [Nat.add_zero] at hc
        exact absurd hc h0
      | succ j2 =>
        have hstep : cancel ((k + 1) + j2) = true := by
          have he : (k + 1) + j2 = k + (j2 + 1) := by omega
          rw [he]
          exact hc
        exact Nat.succ_le_succ (ih (k + 1) j2 _ hstep)

theorem mainColorLoop_cancel_bound (cancel : Nat → Bool) :
    ∀ (fs : List MCFeature) (k j : Nat), cancel (k + j) = true →
      (mainColorLoop cancel k fs).length ≤ j := by
  intro fs
  induction fs with
  | nil =>
    intro k j _
    simp [mainColorLoop]
  | cons f rest ih =>
    intro k j hc
    rw [mainColorLoop]
    by_cases h0 : cancel k = true
    · rw [if_pos h0]
      simp
    · rw [if_neg h0]
      cases j with
      | zero =>
        rw [Nat.add_zero] at hc
        exact absurd hc h0
      | succ j2 =>
        have hstep : cancel ((k + 1) + j2) = true := by
          have he : (k + 1) + j2 = k + (j2 + 1) := by omega
          rw [he]
          exact hc
        exact Nat.succ_le_succ (ih (k + 1) j2 hstep)

/-- **C6 (amended).** The audit loop over project files and the main-color
loop over features poll `feedback.isCanceled()` once per iteration, so once
cancellation is requested (the poll numbered `k + j` returns true) at most
`j` further items are processed; the datasource-rewrite loop `_iterate`
contains no cancellation poll at all — its outcome is identical under every
cancellation schedule. -/
theorem cancellation_polling (P : AuditParams) (cancel cancel2 : Nat → Bool)
    (st : AuditState) (prs : List ProjectInfo) (fs : List MCFeature)
    (sub : List Char → List Char) (backups : Bool) (files : List RewriteFile)
    (k j : Nat) :
    (cancel (k + j) = true → (auditProjectLoop P cancel k st prs).2.length ≤ j)
      ∧ (cancel (k + j) = true → (mainColorLoop cancel k fs).length ≤ j)
      ∧ iterateRunUnderCancel cancel sub backups files
          = iterateRunUnderCancel cancel2 sub backups files := by
  refine ⟨?_, ?_, rfl⟩
  · exact auditProjectLoop_cancel_bound P cancel prs k j st
  · exact mainColorLoop_cancel_bound cancel fs k j

theorem cancellation_polling_witness :
    (auditProjectLoop ⟨"", "p.csv", "l.csv", "t.csv", "", "", false⟩ (fun _ => true) 0
        ⟨[], []⟩ [⟨"a.qgs", []⟩]).2.length ≤ 0
      ∧ (mainColorLoop (fun _ => true) 0 [⟨1, "red", "lab"⟩]).length ≤ 0 := by
  have h := cancellation_polling ⟨"", "p.csv", "l.csv", "t.csv", "", "", false⟩
    (fun _ => true) (fun _ => false) ⟨[], []⟩ [⟨"a.qgs", []⟩] [⟨1, "red", "lab"⟩]
    (fun l => l) true [] 0 0
  exact ⟨h.1 rfl, h.2.1 rfl⟩

/-- Counterexample to **C6** as stated: `_iterate` in the datasource-rewrite
script has no cancellation poll, so with cancellation requested before the
first iteration both collected files are still processed. -/
theorem rewrite_ignores_cancellation_cex :
    (iterateRunUnderCancel (fun _ => true) (reSubOnce false false "a".data "b".data) true
        [⟨"p1.qgs", .ok ["a".data]⟩, ⟨"p2.qgs", .ok ["a".data]⟩]).attempted
      = ["p1.qgs", "p2.qgs"]
      ∧ ¬ ((iterateRunUnderCancel (fun _ => true) (reSubOnce false false "a".data "b".data) true
          [⟨"p1.qgs", .ok ["a".data]⟩, ⟨"p2.qgs", .ok ["a".data]⟩]).attempted.length ≤ 0) := by
  decide

theorem lookup_dictUpdate_self {α : Type} (k : String) (d : α) (f : α → α)
    (m : List (String × α)) :
    (dictUpdate k d f m).lookup k = some (f (entryD m k d)) := by
  induction m with
  | nil => simp [dictUpdate, entryD]
  | cons p t ih =>
    rcases p with ⟨a, b⟩
    by_cases h : a = k
    · subst h
      simp [dictUpdate, entryD, List.lookup]
    · have hka : (k == a) = false := beq_eq_false_iff_ne.mpr (Ne.symm h)
      simpa [dictUpdate, if_neg h, List.lookup, hka, entryD] using ih

theorem lookup_dictUpdate_ne {α : Type} (k k2 : String) (hne : k2 ≠ k) (d : α) (f : α → α)
    (m : List (String × α)) :
    (dictUpdate k d f m).lookup k2 = m.lookup k2 := by
  induction m with
  | nil => simp [dictUpdate, List.lookup, beq_eq_false_iff_ne.mpr hne]
  | cons p t ih =>
    rcases p with ⟨a, b⟩
    by_cases h : a = k
    · subst h
      simp [dictUpdate, List.lookup, beq_eq_false_iff_ne.mpr hne]
    · by_cases h2 : k2 = a
      · subst h2
        simp [dictUpdate, if_neg h, List.lookup]
      · simpa [dictUpdate, if_neg h, List.lookup, beq_eq_false_iff_ne.mpr h2] using ih

theorem entryD_dictUpdate_self {α : Type} (k : String) (d : α) (f : α → α)
    (m : List (String × α)) :
    entryD (dictUpdate k d f m) k d = f (entryD m k d) := by
  rw [entryD, lookup_dictUpdate_self]
  rfl

theorem entryD_dictUpdate_ne {α : Type} (k k2 : String) (hne : k2 ≠ k) (d d2 : α)
    (f : α → α) (m : List (String × α)) :
    entryD (dictUpdate k d f m) k2 d2 = entryD m k2 d2 := by
  rw [entryD, lookup_dictUpdate_ne k k2 hne, entryD]

theorem dictUpdate_keys {α : Type} (k : String) (d : α) (f : α → α)
    (m : List (String × α)) :
    (dictUpdate k d f m).map Prod.fst
      = if k ∈ m.map Prod.fst then m.map Prod.fst else m.map Prod.fst ++ [k] := by
  induction m with
  | nil => simp [dictUpdate]
  | cons p t ih =>
    rcases p with ⟨a, b⟩
    by_cases h : a = k
    · subst h
      simp [dictUpdate]
    · rw [dictUpdate, if_neg h]
      by_cases hk : k ∈ t.map Prod.fst
      · simp [ih, hk, Ne.symm h]
      · simp [ih, hk, Ne.symm h]

theorem dictUpdate_keys_nodup {α : Type} (k : String) (d : α) (f : α → α)
    (m : List (String × α)) (h : (m.map Prod.fst).Nodup) :
    ((dictUpdate k d f m).map Prod.fst).Nodup := by
  rw [dictUpdate_keys]
  by_cases hk : k ∈ m.map Prod.fst
  · rwa [if_pos hk]
  · rw [if_neg hk]
    simp [List.nodup_append, h, hk]

theorem layerTablesUpdate_datasources (P : AuditParams) (r : String) (l : LayerInfo)
    (st : AuditState) : (layerTablesUpdate P r l st).datasources = st.datasources := by
  unfold layerTablesUpdate
  split
  · split <;> rfl
  · rfl

theorem layerDatasourcesUpdate_tables (P : AuditParams) (r ds nm : String)
    (st : AuditState) : (layerDatasourcesUpdate P r ds nm st).tables = st.tables := by
  unfold layerDatasourcesUpdate
  split <;> rfl

theorem layerDatasourcesUpdate_entry (P : AuditParams) (r ds nm : String)
    (st : AuditState) (k : String) :
    entryD (layerDatasourcesUpdate P r ds nm st).datasources k ⟨[], []⟩
      = if (P.outLayers != "TEMPORARY_OUTPUT") && (ds == k)
        then ⟨addUnique (entryD st.datasources k ⟨[], []⟩).names nm,
              addUnique (entryD st.datasources k ⟨[], []⟩).projects r⟩
        else entryD st.datasources k ⟨[], []⟩ := by
  unfold layerDatasourcesUpdate
  by_cases hOL : (P.outLayers != "TEMPORARY_OUTPUT") = true
  · rw [if_pos hOL]
    by_cases hk : ds = k
    · subst hk
      rw [show ((P.outLayers != "TEMPORARY_OUTPUT") && (ds == ds)) = true by simp [hOL]]
      rw [if_pos rfl]
      exact entryD_dictUpdate_self ds ⟨[], []⟩ _ st.datasources
    · rw [show ((P.outLayers != "TEMPORARY_OUTPUT") && (ds == k)) = false by
        simp [hk]]
      rw [if_neg (by simp)]
      exact entryD_dictUpdate_ne ds k (Ne.symm hk) ⟨[], []⟩ ⟨[], []⟩ _ st.datasources
  · have hol2 : (P.outLayers != "TEMPORARY_OUTPUT") = false := by
      revert hOL
      cases P.outLayers != "TEMPORARY_OUTPUT" <;> simp
    rw [hol2]
    simp

theorem layerTablesUpdate_entry (P : AuditParams) (r : String) (l : LayerInfo)
    (st : AuditState) (k : String) :
    entryD (layerTablesUpdate P r l st).tables k []
      = if (P.outTables != "TEMPORARY_OUTPUT") && (l.provider == "postgres")
            && (tbKeyOf l == some k)
        then addUnique (entryD st.tables k []) r
        else entryD st.tables k [] := by
  unfold layerTablesUpdate
  by_cases hC : ((P.outTables != "TEMPORARY_OUTPUT") && (l.provider == "postgres")) = true
  · rw [if_pos hC]
    cases hopt : l.pgSchemaTable with
    | none =>
      rw [show (tbKeyOf l == some k) = false by simp [tbKeyOf, hopt]]
      simp [hC]
    | some p =>
      rcases p with ⟨sch, tbl⟩
      by_cases hk : tableKey sch tbl = k
      · subst hk
        rw [show (tbKeyOf l == some (tableKey sch tbl)) = true by simp [tbKeyOf, hopt]]
        rw [Bool.and_true, if_pos hC]
        exact entryD_dictUpdate_self (tableKey sch tbl) [] _ st.tables
      · rw [show (tbKeyOf l == some k) = false by simp [tbKeyOf, hopt, hk]]
        rw [Bool.and_false, if_neg (by simp)]
        exact entryD_dictUpdate_ne (tableKey sch tbl) k (Ne.symm hk) [] [] _ st.tables
  · have hC2 : ((P.outTables != "TEMPORARY_OUTPUT") && (l.provider == "postgres")) = false := by
      revert hC
      cases (P.outTables != "TEMPORARY_OUTPUT") && (l.provider == "postgres") <;> simp
    rw [if_neg (by simp [hC2])]
    rw [hC2]
    simp

theorem processLayer_ds_entry (P : AuditParams) (r : String) (st : AuditState)
    (l : LayerInfo) (k : String) :
    entryD (processLayer P r st l).datasources k ⟨[], []⟩
      = if dsContributes P l && (strStrip l.datasourceText == k)
        then ⟨addUnique (entryD st.datasources k ⟨[], []⟩).names (strStrip l.name),
              addUnique (entryD st.datasources k ⟨[], []⟩).projects r⟩
        else entryD st.datasources k ⟨[], []⟩ := by
  unfold processLayer dsContributes
  by_cases hm : matchesFilters P (strStrip l.name) (strStrip l.datasourceText) = true
  · by_cases hds : (strStrip l.datasourceText == "") = true
    · rw [if_neg (by simp [hm]), if_pos hds]
      simp [bne, hds]
    · rw [if_neg (by simp [hm]), if_neg (by simp [hds])]
      rw [layerDatasourcesUpdate_entry, layerTablesUpdate_datasources]
      have hbne : (strStrip l.datasourceText != "") = true := by simp [bne, hds]
      rw [hm, hbne]
      simp
  · have hm2 : matchesFilters P (strStrip l.name) (strStrip l.datasourceText) = false := by
      revert hm
      cases matchesFilters P (strStrip l.name) (strStrip l.datasourceText) <;> simp
    rw [if_pos (by simp [hm2]), hm2]
    simp

theorem processLayer_tb_entry (P : AuditParams) (r : String) (st : AuditState)
    (l : LayerInfo) (k : String) :
    entryD (processLayer P r st l).tables k []
      = if tbContributes P l && (tbKeyOf l == some k)
        then addUnique (entryD st.tables k []) r
        else entryD st.tables k [] := by
  unfold processLayer tbContributes
  by_cases hm : matchesFilters P (strStrip l.name) (strStrip l.datasourceText) = true
  · by_cases hds : (strStrip l.datasourceText == "") = true
    · rw [if_neg (by simp [hm]), if_pos hds]
      simp [bne, hds]
    · rw [if_neg (by simp [hm]), if_neg (by simp [hds])]
      rw [layerDatasourcesUpdate_tables, layerTablesUpdate_entry]
      have hbne : (strStrip l.datasourceText != "") = true := by simp [bne, hds]
      rw [hm, hbne]
      cases hopt : l.pgSchemaTable with
      | none => simp [tbKeyOf, hopt]
      | some p =>
        simp [Bool.and_assoc]
  · have hm2 : matchesFilters P (strStrip l.name) (strStrip l.datasourceText) = false := by
      revert hm
      cases matchesFilters P (strStrip l.name) (strStrip l.datasourceText) <;> simp
    rw [if_pos (by simp [hm2]), hm2]
    simp

theorem layerTablesUpdate_tables_nodup (P : AuditParams) (r : String) (l : LayerInfo)
    (st : AuditState) (h : (st.tables.map Prod.fst).Nodup) :
    ((layerTablesUpdate P r l st).tables.map Prod.fst).Nodup := by
  unfold layerTablesUpdate
  split
  · split
    · exact dictUpdate_keys_nodup _ _ _ _ h
    · exact h
  · exact h

theorem layerDatasourcesUpdate_ds_nodup (P : AuditParams) (r ds nm : String)
    (st : AuditState) (h : (st.datasources.map Prod.fst).Nodup) :
    ((layerDatasourcesUpdate P r ds nm st).datasources.map Prod.fst).Nodup := by
  unfold layerDatasourcesUpdate
  split
  · exact dictUpdate_keys_nodup _ _ _ _ h
  · exact h

theorem processLayer_nodup (P : AuditParams) (r : String) (st : AuditState) (l : LayerInfo)
    (h : (st.datasources.map Prod.fst).Nodup ∧ (st.tables.map Prod.fst).Nodup) :
    ((processLayer P r st l).datasources.map Prod.fst).Nodup ∧
      ((processLayer P r st l).tables.map Prod.fst).Nodup := by
  obtain ⟨h1, h2⟩ := h
  unfold processLayer
  by_cases hm : matchesFilters P (strStrip l.name) (strStrip l.datasourceText) = true
  · by_cases hds : (strStrip l.datasourceText == "") = true
    · rw [if_neg (by simp [hm]), if_pos hds]
      exact ⟨h1, h2⟩
    · rw [if_neg (by simp [hm]), if_neg (by simp [hds])]
      constructor
      · apply layerDatasourcesUpdate_ds_nodup
        rw [layerTablesUpdate_datasources]
        exact h1
      · rw [layerDatasourcesUpdate_tables]
        exact layerTablesUpdate_tables_nodup P r l st h2
  · have hm2 : matchesFilters P (strStrip l.name) (strStrip l.datasourceText) = false := by
      revert hm
      cases matchesFilters P (strStrip l.name) (strStrip l.datasourceText) <;> simp
    rw [if_pos (by simp [hm2])]
    exact ⟨h1, h2⟩

theorem foldl_inv {σ γ : Type} (Inv : σ → Prop) (g : σ → γ → σ)
    (hg : ∀ s a, Inv s → Inv (g s a)) :
    ∀ (l : List γ) (s : σ), Inv s → Inv (l.foldl g s) := by
  intro l
  induction l with
  | nil => exact fun s h => h
  | cons a t ih => exact fun s h => ih _ (hg s a h)

theorem foldl_proj {σ β γ : Type} (g : σ → γ → σ) (π : σ → β) (u : γ → β → β)
    (hcomm : ∀ s a, π (g s a) = u a (π s)) :
    ∀ (l : List γ) (s : σ), π (l.foldl g s) = l.foldl (fun b a => u a b) (π s) := by
  intro l
  induction l with
  | nil => intro s; rfl
  | cons a t ih =>
    intro s
    rw [List.foldl_cons, List.foldl_cons, ih, hcomm]

theorem foldl_flatMap {α β σ : Type} (h : α → List β) (g : σ → β → σ) :
    ∀ (l : List α) (s : σ),
      (l.flatMap h).foldl g s = l.foldl (fun s a => (h a).foldl g s) s := by
  intro l
  induction l with
  | nil => intro s; rfl
  | cons a t ih =>
    intro s
    rw [List.flatMap_cons, List.foldl_append, List.foldl_cons, ih]

theorem foldl_filter_map {α β σ : Type} (p : α → Bool) (g : α → β) (step : σ → β → σ) :
    ∀ (l : List α) (s : σ),
      ((l.filter p).map g).foldl step s
        = l.foldl (fun s a => if p a then step s (g a) else s) s := by
  intro l
  induction l with
  | nil => intro s; rfl
  | cons a t ih =>
    intro s
    by_cases hp : p a = true
    · rw [List.filter_cons_of_pos hp, List.map_cons, List.foldl_cons,
        List.foldl_cons, if_pos hp, ih]
    · rw [List.filter_cons_of_neg (by simpa using hp), List.foldl_cons, if_neg hp, ih]

theorem buildAudit_nodup (P : AuditParams) (prs : List ProjectInfo) :
    ((buildAuditState P prs).datasources.map Prod.fst).Nodup ∧
      ((buildAuditState P prs).tables.map Prod.fst).Nodup := by
  unfold buildAuditState
  apply foldl_inv
    (fun st : AuditState =>
      (st.datasources.map Prod.fst).Nodup ∧ (st.tables.map Prod.fst).Nodup)
    (processProject P)
  · intro s pr hInv
    unfold processProject
    apply foldl_inv
      (fun st : AuditState =>
        (st.datasources.map Prod.fst).Nodup ∧ (st.tables.map Prod.fst).Nodup)
      (processLayer P (relPath P.root pr.path))
    · intro s2 l h2
      exact processLayer_nodup P _ s2 l h2
    · exact hInv
  · exact ⟨List.nodup_nil, List.nodup_nil⟩

theorem buildAudit_ds_entry (P : AuditParams) (prs : List ProjectInfo) (k : String) :
    entryD (buildAuditState P prs).datasources k ⟨[], []⟩
      = ⟨(dsKeyNameContribs P prs k).foldl addUnique [],
         (dsKeyProjContribs P prs k).foldl addUnique []⟩ := by
  have hnames : (entryD (buildAuditState P prs).datasources k ⟨[], []⟩).names
      = (dsKeyNameContribs P prs k).foldl addUnique [] := by
    have hlayer : ∀ (r : String) (s : AuditState) (l : LayerInfo),
        (fun st : AuditState => (entryD st.datasources k ⟨[], []⟩).names)
            (processLayer P r s l)
          = (if dsContributes P l && (strStrip l.datasourceText == k)
             then addUnique ((entryD s.datasources k ⟨[], []⟩).names) (strStrip l.name)
             else (entryD s.datasources k ⟨[], []⟩).names) := by
      intro r s l
      dsimp only
      rw [processLayer_ds_entry, apply_ite (fun e : DsEntry => e.names)]
    have hproject : ∀ (s : AuditState) (pr : ProjectInfo),
        (fun st : AuditState => (entryD st.datasources k ⟨[], []⟩).names)
            (processProject P s pr)
          = pr.layers.foldl
              (fun ns l => if dsContributes P l && (strStrip l.datasourceText == k)
                           then addUnique ns (strStrip l.name) else ns)
              ((entryD s.datasources k ⟨[], []⟩).names) := by
      intro s pr
      dsimp only
      rw [processProject]
      exact foldl_proj (processLayer P (relPath P.root pr.path))
        (fun st : AuditState => (entryD st.datasources k ⟨[], []⟩).names)
        (fun l ns => if dsContributes P l && (strStrip l.datasourceText == k)
                     then addUnique ns (strStrip l.name) else ns)
        (hlayer (relPath P.root pr.path)) pr.layers s
    have hmain := foldl_proj (processProject P)
      (fun st : AuditState => (entryD st.datasources k ⟨[], []⟩).names)
      (fun pr ns => pr.layers.foldl
        (fun ns l => if dsContributes P l && (strStrip l.datasourceText == k)
                     then addUnique ns (strStrip l.name) else ns) ns)
      hproject prs ⟨[], []⟩
    dsimp only at hmain
    rw [buildAuditState, hmain]
    rw [dsKeyNameContribs, foldl_flatMap]
    have hstep : (fun (s : List String) (pr : ProjectInfo) =>
        (((pr.layers.filter (fun l => dsContributes P l && (strStrip l.datasourceText == k))).map
          (fun l => strStrip l.name))).foldl addUnique s)
        = (fun s pr => pr.layers.foldl
            (fun ns l => if dsContributes P l && (strStrip l.datasourceText == k)
                         then addUnique ns (strStrip l.name) else ns) s) := by
      funext s pr
      exact foldl_filter_map _ _ _ pr.layers s
    rw [hstep]
    rfl
  have hprojs : (entryD (buildAuditState P prs).datasources k ⟨[], []⟩).projects
      = (dsKeyProjContribs P prs k).foldl addUnique [] := by
    have hlayer : ∀ (r : String) (s : AuditState) (l : LayerInfo),
        (fun st : AuditState => (entryD st.datasources k ⟨[], []⟩).projects)
            (processLayer P r s l)
          = (if dsContributes P l && (strStrip l.datasourceText == k)
             then addUnique ((entryD s.datasources k ⟨[], []⟩).projects) r
             else (entryD s.datasources k ⟨[], []⟩).projects) := by
      intro r s l
      dsimp only
      rw [processLayer_ds_entry, apply_ite (fun e : DsEntry => e.projects)]
    have hproject : ∀ (s : AuditState) (pr : ProjectInfo),
        (fun st : AuditState => (entryD st.datasources k ⟨[], []⟩).projects)
            (processProject P s pr)
          = pr.layers.foldl
              (fun ns l => if dsContributes P l && (strStrip l.datasourceText == k)
                           then addUnique ns (relPath P.root pr.path) else ns)
              ((entryD s.datasources k ⟨[], []⟩).projects) := by
      intro s pr
      dsimp only
      rw [processProject]
      exact foldl_proj (processLayer P (relPath P.root pr.path))
        (fun st : AuditState => (entryD st.datasources k ⟨[], []⟩).projects)
        (fun l ns => if dsContributes P l && (strStrip l.datasourceText == k)
                     then addUnique ns (relPath P.root pr.path) else ns)
        (hlayer (relPath P.root pr.path)) pr.layers s
    have hmain := foldl_proj (processProject P)
      (fun st : AuditState => (entryD st.datasources k ⟨[], []⟩).projects)
      (fun pr ns => pr.layers.foldl
        (fun ns l => if dsContributes P l && (strStrip l.datasourceText == k)
                     then addUnique ns (relPath P.root pr.path) else ns) ns)
      hproject prs ⟨[], []⟩
    dsimp only at hmain
    rw [buildAuditState, hmain]
    rw [dsKeyProjContribs, foldl_flatMap]
    have hstep : (fun (s : List String) (pr : ProjectInfo) =>
        (((pr.layers.filter (fun l => dsContributes P l && (strStrip l.datasourceText == k))).map
          (fun _ => relPath P.root pr.path))).foldl addUnique s)
        = (fun s pr => pr.layers.foldl
            (fun ns l => if dsContributes P l && (strStrip l.datasourceText == k)
                         then addUnique ns (relPath P.root pr.path) else ns) s) := by
      funext s pr
      exact foldl_filter_map _ _ _ pr.layers s
    rw [hstep]
    rfl
  calc entryD (buildAuditState P prs).datasources k ⟨[], []⟩
      = ⟨(entryD (buildAuditState P prs).datasources k ⟨[], []⟩).names,
         (entryD (buildAuditState P prs).datasources k ⟨[], []⟩).projects⟩ := rfl
    _ = ⟨(dsKeyNameContribs P prs k).foldl addUnique [],
         (dsKeyProjContribs P prs k).foldl addUnique []⟩ := by rw [hnames, hprojs]

theorem buildAudit_tb_entry (P : AuditParams) (prs : List ProjectInfo) (k : String) :
    entryD (buildAuditState P prs).tables k []
      = (tbKeyProjContribs P prs k).foldl addUnique [] := by
  have hlayer : ∀ (r : String) (s : AuditState) (l : LayerInfo),
      (fun st : AuditState => entryD st.tables k []) (processLayer P r s l)
        = (if tbContributes P l && (tbKeyOf l == some k)
           then addUnique (entryD s.tables k []) r
           else entryD s.tables k []) := by
    intro r s l
    dsimp only
    rw [processLayer_tb_entry]
  have hproject : ∀ (s : AuditState) (pr : ProjectInfo),
      (fun st : AuditState => entryD st.tables k []) (processProject P s pr)
        = pr.layers.foldl
            (fun ns l => if tbContributes P l && (tbKeyOf l == some k)
                         then addUnique ns (relPath P.root pr.path) else ns)
            (entryD s.tables k []) := by
    intro s pr
    dsimp only
    rw [processProject]
    exact foldl_proj (processLayer P (relPath P.root pr.path))
      (fun st : AuditState => entryD st.tables k [])
      (fun l ns => if tbContributes P l && (tbKeyOf l == some k)
                   then addUnique ns (relPath P.root pr.path) else ns)
      (hlayer (relPath P.root pr.path)) pr.layers s
  have hmain := foldl_proj (processProject P)
    (fun st : AuditState => entryD st.tables k [])
    (fun pr ns => pr.layers.foldl
      (fun ns l => if tbContributes P l && (tbKeyOf l == some k)
                   then addUnique ns (relPath P.root pr.path) else ns) ns)
    hproject prs ⟨[], []⟩
  dsimp only at hmain
  rw [buildAuditState, hmain]
  rw [tbKeyProjContribs, foldl_flatMap]
  have hstep : (fun (s : List String) (pr : ProjectInfo) =>
      (((pr.layers.filter (fun l => tbContributes P l && (tbKeyOf l == some k))).map
        (fun _ => relPath P.root pr.path))).foldl addUnique s)
      = (fun s pr => pr.layers.foldl
          (fun ns l => if tbContributes P l && (tbKeyOf l == some k)
                       then addUnique ns (relPath P.root pr.path) else ns) s) := by
    funext s pr
    exact foldl_filter_map _ _ _ pr.layers s
  rw [hstep]
  rfl

theorem sortedKeys_perm {α : Type} (m : List (String × α)) :
    (sortedKeys m).Perm (m.map Prod.fst) :=
  List.mergeSort_perm (m.map Prod.fst) _

theorem sortedKeys_pairwise {α : Type} (m : List (String × α)) :
    List.Pairwise (· ≤ ·) (sortedKeys m) := by
  have hp : (List.mergeSort (m.map Prod.fst) (fun a b : String => decide (a ≤ b))).Pairwise
      (fun a b : String => decide (a ≤ b)) :=
    List.sorted_mergeSort
      (by intro a b c hab hbc
          simp only [decide_eq_true_eq] at *
          exact le_trans hab hbc)
      (by intro a b
          simp only [Bool.or_eq_true, decide_eq_true_eq]
          exact le_total a b)
      (m.map Prod.fst)
  exact hp.imp (by intro a b hb; exact of_decide_eq_true hb)

theorem sortedKeys_eq_of_sorted {α : Type} (m : List (String × α)) (tgt : List String)
    (hperm : (m.map Prod.fst).Perm tgt) (hsorted : List.Pairwise (· ≤ ·) tgt) :
    sortedKeys m = tgt :=
  List.eq_of_perm_of_sorted ((sortedKeys_perm m).trans hperm)
    (sortedKeys_pairwise m) hsorted

/-- **C1 (amended).** In the maps the audit run builds, every deduplication
key (datasource string, PostgreSQL table identifier) occurs exactly once
(the key lists are duplicate-free, both in the maps and in the emitted
rows); the entry of each key is exactly the first-occurrence-deduplicated
fold, in processing order, of the contributing layer names and referencing
project paths — complete and order-preserving; and the output rows are
ordered by sorted key (Python `sorted(keys)`), not by insertion order. -/
theorem audit_maps_dedup_ordered (P : AuditParams) (prs : List ProjectInfo) (k : String) :
    ((buildAuditState P prs).datasources.map Prod.fst).Nodup
      ∧ ((buildAuditState P prs).tables.map Prod.fst).Nodup
      ∧ (sortedKeys (buildAuditState P prs).datasources).Nodup
      ∧ (sortedKeys (buildAuditState P prs).tables).Nodup
      ∧ entryD (buildAuditState P prs).datasources k ⟨[], []⟩
          = ⟨(dsKeyNameContribs P prs k).foldl addUnique [],
             (dsKeyProjContribs P prs k).foldl addUnique []⟩
      ∧ entryD (buildAuditState P prs).tables k []
          = (tbKeyProjContribs P prs k).foldl addUnique []
      ∧ (sortedKeys (buildAuditState P prs).datasources).Perm
          ((buildAuditState P prs).datasources.map Prod.fst)
      ∧ List.Pairwise (· ≤ ·) (sortedKeys (buildAuditState P prs).datasources)
      ∧ (sortedKeys (buildAuditState P prs).tables).Perm
          ((buildAuditState P prs).tables.map Prod.fst)
      ∧ List.Pairwise (· ≤ ·) (sortedKeys (buildAuditState P prs).tables) := by
  obtain ⟨hn1, hn2⟩ := buildAudit_nodup P prs
  refine ⟨hn1, hn2, ?_, ?_, buildAudit_ds_entry P prs k, buildAudit_tb_entry P prs k,
    sortedKeys_perm _, sortedKeys_pairwise _, sortedKeys_perm _, sortedKeys_pairwise _⟩
  · exact (sortedKeys_perm _).symm.nodup hn1
  · exact (sortedKeys_perm _).symm.nodup hn2

/-- Counterexample to **C1** as stated: with two projects contributing the
datasources `b` then `a` (insertion order `["b", "a"]`), the layers CSV rows
are emitted over `sorted(keys)` and come out as `["a", "b"]` — output row
order is sorted-key order, not insertion order. -/
theorem layers_rows_not_insertion_order_cex :
    ((buildAuditState ⟨"", "p.csv", "l.csv", "t.csv", "", "", false⟩
        [⟨"p1.qgs", [⟨"n1", "b", "ogr", none⟩]⟩,
         ⟨"p2.qgs", [⟨"n2", "a", "ogr", none⟩]⟩]).datasources.map Prod.fst = ["b", "a"])
      ∧ sortedKeys (buildAuditState ⟨"", "p.csv", "l.csv", "t.csv", "", "", false⟩
          [⟨"p1.qgs", [⟨"n1", "b", "ogr", none⟩]⟩,
           ⟨"p2.qgs", [⟨"n2", "a", "ogr", none⟩]⟩]).datasources = ["a", "b"]
      ∧ sortedKeys (buildAuditState ⟨"", "p.csv", "l.csv", "t.csv", "", "", false⟩
          [⟨"p1.qgs", [⟨"n1", "b", "ogr", none⟩]⟩,
           ⟨"p2.qgs", [⟨"n2", "a", "ogr", none⟩]⟩]).datasources
        ≠ (buildAuditState ⟨"", "p.csv", "l.csv", "t.csv", "", "", false⟩
            [⟨"p1.qgs", [⟨"n1", "b", "ogr", none⟩]⟩,
             ⟨"p2.qgs", [⟨"n2", "a", "ogr", none⟩]⟩]).datasources.map Prod.fst := by
  have h1 : (buildAuditState ⟨"", "p.csv", "l.csv", "t.csv", "", "", false⟩
      [⟨"p1.qgs", [⟨"n1", "b", "ogr", none⟩]⟩,
       ⟨"p2.qgs", [⟨"n2", "a", "ogr", none⟩]⟩]).datasources.map Prod.fst = ["b", "a"] := by
    decide
  have h2 : sortedKeys (buildAuditState ⟨"", "p.csv", "l.csv", "t.csv", "", "", false⟩
      [⟨"p1.qgs", [⟨"n1", "b", "ogr", none⟩]⟩,
       ⟨"p2.qgs", [⟨"n2", "a", "ogr", none⟩]⟩]).datasources = ["a", "b"] := by
    apply sortedKeys_eq_of_sorted
    · rw [h1]
      exact List.Perm.swap "a" "b" []
    · refine List.Pairwise.cons ?_ (List.pairwise_singleton _ _)
      intro x hx
      have hxe : x = "b" := List.mem_singleton.mp hx
      subst hxe
      exact String.le_iff_toList_le.mpr (by decide)
  refine ⟨h1, h2, ?_⟩
  rw [h1, h2]
  decide

end QGISRes
